import Mathlib

/-!
Verification of the analytical core of `voicelearn_eval` (grade-level
scoring, statistics, regression detection, comparison and trend analysis).

Modelling conventions, used throughout:
* Python floats are modelled as exact rationals (`ℚ`); `math.sqrt` (which has
  no exact rational counterpart) is passed in as an abstract function
  parameter where a definition needs it.
* A Python result dict is a structure whose fields model the keys the
  analytical core reads.  A key that the code distinguishes between
  "absent" and "present with value None" (via one-argument `.get` versus
  two-argument `.get` with a default) is modelled as `Option (Option _)`:
  `none` = key absent, `some none` = key present holding `None`.
  Keys only ever read through one-argument `.get` (which conflates the two)
  are modelled as a single `Option`.
* `round(x, n)` is modelled by `pyRound`, round-half-to-even at `n` decimal
  digits, Python's rounding mode.
* Python `list.sort` / `sorted` are stable ascending sorts, modelled with
  `List.mergeSort` (also stable).
* Python `set` iteration order is unspecified; it is modelled as
  first-encounter order, one admissible order (`collectedTiers` below).
-/

namespace VoiceLearnEval

/-- Severity levels, `analyzer/regression.py` class `RegressionSeverity`
(the Python values are the strings "none" … "critical"). -/
inductive Severity
  | none
  | minor
  | moderate
  | severe
  | critical
deriving DecidableEq, Repr

/-- `analyzer/regression.py` `ci_exit_code`: CI exit code derived from the
report's `overall_severity` field. -/
def ciExitCode (severity : Severity) : Nat :=
  if severity = .critical ∨ severity = .severe then 2
  else if severity = .moderate ∨ severity = .minor then 1
  else 0

/-- `analyzer/regression.py` `_classify_severity(current, baseline, threshold)`. -/
def classifySeverity (current baseline threshold : ℚ) : Severity :=
  if current ≥ baseline then .none
  else
    let delta_pct : ℚ := if baseline ≠ 0 then ((baseline - current) / baseline) * 100 else 0
    if baseline ≥ threshold ∧ current < threshold then .critical
    else if delta_pct > 15 then .severe
    else if delta_pct > 5 then .moderate
    else if delta_pct > 0 then .minor
    else .none

/-- The per-task severity rules exactly as the spec words them: improvement
or tie is never a regression; crossing the pass/fail line is CRITICAL
regardless of magnitude; otherwise the percent-decline bands. -/
def severitySpec (current baseline threshold : ℚ) : Severity :=
  if current ≥ baseline then .none
  else if baseline ≥ threshold ∧ current < threshold then .critical
  else
    let declinePct : ℚ := if baseline = 0 then 0 else ((baseline - current) / baseline) * 100
    if declinePct > 15 then .severe
    else if declinePct > 5 then .moderate
    else if declinePct > 0 then .minor
    else .none

/-- `core/models.py` `EducationTier`: the four canonical tier values
("elementary", "highschool", "undergrad", "grad" — it is a `str` enum). -/
inductive Tier
  | elementary
  | highschool
  | undergrad
  | grad
deriving DecidableEq, Repr

/-- The string value of a tier. -/
def Tier.val : Tier → String
  | .elementary => "elementary"
  | .highschool => "highschool"
  | .undergrad => "undergrad"
  | .grad => "grad"

/-- Position of a tier in the fixed ordering `TIER_ORDER`. -/
def Tier.idx : Tier → Nat
  | .elementary => 0
  | .highschool => 1
  | .undergrad => 2
  | .grad => 3

/-- `grade_levels/tiers.py` `TIER_ORDER`. -/
def TIER_ORDER : List Tier := [.elementary, .highschool, .undergrad, .grad]

/-- `grade_levels/tiers.py` `DEFAULT_THRESHOLD`. -/
def DEFAULT_THRESHOLD : ℚ := 70

/-- One task-result dict, restricted to the keys the analytical core reads.
`task_name`, `name`, `education_tier` and `model-independent keys read through
two different access patterns are `Option (Option _)`: outer `none` = key
absent, `some none` = key present holding Python `None`.  `benchmark_id`,
`score`, `weight` are only read through accessors that conflate the two, so a
single `Option` suffices. -/
structure TaskResult where
  task_name : Option (Option String) := none
  name : Option (Option String) := none
  benchmark_id : Option String := none
  score : Option ℚ := none
  education_tier : Option (Option String) := none
  weight : Option ℚ := none
deriving DecidableEq, Repr

/-- `r.get("education_tier")`: absent and present-`None` both give `None`. -/
def getTier (r : TaskResult) : Option String := r.education_tier.bind id

/-- `t.get("weight", 1.0)`. -/
def weightOf (r : TaskResult) : ℚ := r.weight.getD 1

/-- `t["score"]`; only applied to results already filtered to a non-null
score, so the default is never observable. -/
def scoreVal (r : TaskResult) : ℚ := r.score.getD 0

/-- `t.get("task_name", t.get("name", "Unknown"))` in the breakdown built by
`calculate_tier_score`: a present-but-null `task_name` stays `None`. -/
def breakdownName (r : TaskResult) : Option String :=
  match r.task_name with
  | some v => v
  | none =>
      match r.name with
      | some v => v
      | none => some "Unknown"

/-- `grade_levels/scorer.py` `assess_tier`: `score >= threshold`. -/
def assessTier (score threshold : ℚ) : Bool := decide (threshold ≤ score)

/-- The loop condition of `get_max_passing_tier`:
`tier_key in tier_scores and assess_tier(tier_scores[tier_key], threshold)`. -/
def tierPassB (m : String → Option ℚ) (thr : ℚ) (t : Tier) : Bool :=
  match m t.val with
  | some s => assessTier s thr
  | none => false

/-- The loop of `get_max_passing_tier`: advance the running maximum on each
passing tier, stop at the first absent-or-failing tier (`break`). -/
def goMaxTier (m : String → Option ℚ) (thr : ℚ) :
    List Tier → Option String → Option String
  | [], acc => acc
  | t :: rest, acc =>
      if tierPassB m thr t then goMaxTier m thr rest (some t.val) else acc

/-- `grade_levels/scorer.py` `get_max_passing_tier(tier_scores, threshold)`.
The tier-scores dict is modelled extensionally as `String → Option ℚ`. -/
def getMaxPassingTier (m : String → Option ℚ) (thr : ℚ) : Option String :=
  goMaxTier m thr TIER_ORDER none

/-- Spec-side: tier `t` is present in the mapping with a passing score. -/
def tierPasses (m : String → Option ℚ) (thr : ℚ) (t : Tier) : Prop :=
  ∃ s, m t.val = some s ∧ thr ≤ s

/-- Spec-side: every tier from elementary up to and including `t` is present
and passing (the sequential-pass condition of the spec). -/
def seqPasses (m : String → Option ℚ) (thr : ℚ) (t : Tier) : Prop :=
  ∀ t2 : Tier, t2.idx ≤ t.idx → tierPasses m thr t2

/-- The spec's gap example: {elementary: 90, highschool: 60, undergrad: 80,
grad: 75}. -/
def exampleTierScores : String → Option ℚ := fun k =>
  if k = "elementary" then some 90
  else if k = "highschool" then some 60
  else if k = "undergrad" then some 80
  else if k = "grad" then some 75
  else none

/-- `grade_levels/scorer.py` `calculate_tier_score`'s filter: matching tier
and non-null score. -/
def tierTasks (rs : List TaskResult) (tier : String) : List TaskResult :=
  rs.filter fun r => decide (getTier r = some tier) && r.score.isSome

/-- Spec-side restatement of the same filter, in the claim's words. -/
def matchingTasks (rs : List TaskResult) (tier : String) : List TaskResult :=
  rs.filter fun r => decide (getTier r = some tier ∧ r.score ≠ none)

/-- One `{task_name, score, weight}` entry of the tier breakdown. -/
structure BreakdownEntry where
  task_name : Option String
  score : ℚ
  weight : ℚ
deriving DecidableEq, Repr

/-- The breakdown entry built for one contributing task. -/
def mkBreakdown (r : TaskResult) : BreakdownEntry :=
  ⟨breakdownName r, scoreVal r, weightOf r⟩

/-- `grade_levels/scorer.py` `calculate_tier_score(task_results, tier)`. -/
def calculateTierScore (rs : List TaskResult) (tier : String) :
    ℚ × List BreakdownEntry :=
  let ts := tierTasks rs tier
  if ts = [] then (0, [])
  else
    let total_weight := (ts.map weightOf).sum
    if total_weight = 0 then (0, [])
    else
      let weighted_sum := (ts.map fun t => scoreVal t * weightOf t).sum
      (weighted_sum / total_weight, ts.map mkBreakdown)

/-- The two-task example from the spec: (score 80, weight 2) and
(score 60, weight 1), both in tier "elementary". -/
def c5ExampleResults : List TaskResult :=
  [{ task_name := some (some "a"), score := some 80,
     education_tier := some (some "elementary"), weight := some 2 },
   { task_name := some (some "b"), score := some 60,
     education_tier := some (some "elementary"), weight := some 1 }]

/-- A matching task whose weight is 0: the weights of the matching tasks sum
to zero. -/
def c5ZeroWeightResult : TaskResult :=
  { task_name := some (some "t"), score := some 80,
    education_tier := some (some "elementary"), weight := some 0 }

/-- C1: for every overall severity, the CI exit code is 2 on critical/severe,
1 on moderate/minor and 0 on none; no other exit code occurs. -/
theorem ciExitCode_bands (s : Severity) :
    ciExitCode s = (match s with
      | .critical | .severe => 2
      | .moderate | .minor => 1
      | .none => 0) := by
  cases s <;> rfl

/-- C3: the per-task severity classification applies the rules in the
spec's precedence order (current ≥ baseline → NONE; crossed threshold →
CRITICAL regardless of magnitude; then the >15% / >5% / >0% bands), and in
particular baseline 75, current 65, threshold 70 classifies as CRITICAL. -/
theorem classifySeverity_spec (current baseline threshold : ℚ) :
    classifySeverity current baseline threshold
      = severitySpec current baseline threshold
    ∧ classifySeverity 65 75 70 = .critical := by
  constructor
  · unfold classifySeverity severitySpec
    by_cases h0 : current ≥ baseline
    · simp [h0]
    · by_cases hb : baseline = 0 <;> simp [h0, hb]
  · norm_num [classifySeverity]

lemma tierPasses_iff (m : String → Option ℚ) (thr : ℚ) (t : Tier) :
    tierPasses m thr t ↔ tierPassB m thr t = true := by
  unfold tierPasses tierPassB assessTier
  cases h : m t.val <;> simp [h]

lemma forall_tier (P : Tier → Prop) :
    (∀ t, P t) ↔ P .elementary ∧ P .highschool ∧ P .undergrad ∧ P .grad :=
  ⟨fun h => ⟨h _, h _, h _, h _⟩, fun ⟨a, b, c, d⟩ t => by cases t <;> assumption⟩

lemma seqPasses_iff (m : String → Option ℚ) (thr : ℚ) (t : Tier) :
    seqPasses m thr t ↔ ∀ t2 : Tier, t2.idx ≤ t.idx → tierPassB m thr t2 = true := by
  unfold seqPasses
  constructor
  · intro h t2 h2
    exact (tierPasses_iff m thr t2).mp (h t2 h2)
  · intro h t2 h2
    exact (tierPasses_iff m thr t2).mpr (h t2 h2)

/-- C2: `get_max_passing_tier` returns, when non-null, the highest tier in
the fixed order such that every tier from elementary up to and including it
is present with score ≥ threshold; it returns `None` exactly when elementary
itself is absent or failing; and the spec's gap example
{elementary: 90, highschool: 60, undergrad: 80, grad: 75} at threshold 70
yields "elementary". -/
theorem getMaxPassingTier_spec (m : String → Option ℚ) (thr : ℚ) :
    (∀ t : Tier, getMaxPassingTier m thr = some t.val ↔
        (seqPasses m thr t ∧ ∀ t2 : Tier, seqPasses m thr t2 → t2.idx ≤ t.idx))
    ∧ (getMaxPassingTier m thr = none ↔ ¬ tierPasses m thr .elementary)
    ∧ getMaxPassingTier exampleTierScores 70 = some "elementary" := by
  refine ⟨?_, ?_, ?_⟩
  · intro t
    cases hE : tierPassB m thr .elementary <;>
      cases hH : tierPassB m thr .highschool <;>
        cases hU : tierPassB m thr .undergrad <;>
          cases hG : tierPassB m thr .grad <;>
            cases t <;>
              simp +decide [getMaxPassingTier, goMaxTier, TIER_ORDER, seqPasses_iff,
                forall_tier, Tier.idx, Tier.val, hE, hH, hU, hG]
  · cases hE : tierPassB m thr .elementary <;>
      cases hH : tierPassB m thr .highschool <;>
        cases hU : tierPassB m thr .undergrad <;>
          cases hG : tierPassB m thr .grad <;>
            simp +decide [getMaxPassingTier, goMaxTier, TIER_ORDER, tierPasses_iff,
              Tier.val, hE, hH, hU, hG]
  · have s1 : exampleTierScores "elementary" = some 90 := by
      norm_num [exampleTierScores]
    have s2 : exampleTierScores "highschool" = some 60 := by
      simp [exampleTierScores, show ("highschool" : String) ≠ "elementary" from by decide]
    have e1 : tierPassB exampleTierScores 70 Tier.elementary = true := by
      norm_num [tierPassB, Tier.val, s1, assessTier]
    have e2 : tierPassB exampleTierScores 70 Tier.highschool = false := by
      norm_num [tierPassB, Tier.val, s2, assessTier]
    simp [getMaxPassingTier, goMaxTier, TIER_ORDER, e1, e2, Tier.val]

/-- C5 counterexample: a single matching task with weight 0 makes
`calculate_tier_score` return `(0.0, [])` although the set of contributing
tasks (matching tier, non-null score) is non-empty, so the returned
breakdown is not the breakdown of the contributing tasks. -/
theorem calculateTierScore_zero_weight_cex :
    calculateTierScore [c5ZeroWeightResult] "elementary" = (0, [])
    ∧ tierTasks [c5ZeroWeightResult] "elementary" = [c5ZeroWeightResult] := by
  constructor
  · norm_num [calculateTierScore, tierTasks, getTier, c5ZeroWeightResult, weightOf]
  · norm_num [tierTasks, getTier, c5ZeroWeightResult]

/-- C5 (amended): `calculate_tier_score` filters to results whose
education_tier equals the tier and whose score is non-null; when no task
matches, or when the matching tasks' weights sum to 0, it returns
`(0.0, [])`; otherwise it returns the weighted mean
`sum(score*weight)/sum(weight)` (weight defaulting to 1.0 when absent)
together with the breakdown of the contributing tasks; the spec's example
[(80, w=2), (60, w=1)] scores 220/3 ≈ 73.33. -/
theorem calculateTierScore_spec (rs : List TaskResult) (tier : String) :
    tierTasks rs tier = matchingTasks rs tier
    ∧ (matchingTasks rs tier = [] → calculateTierScore rs tier = (0, []))
    ∧ (((matchingTasks rs tier).map weightOf).sum = 0 →
        calculateTierScore rs tier = (0, []))
    ∧ (matchingTasks rs tier ≠ [] → ((matchingTasks rs tier).map weightOf).sum ≠ 0 →
        calculateTierScore rs tier =
          (((matchingTasks rs tier).map fun t => scoreVal t * weightOf t).sum
              / ((matchingTasks rs tier).map weightOf).sum,
           (matchingTasks rs tier).map mkBreakdown))
    ∧ calculateTierScore c5ExampleResults "elementary"
        = (220/3, [⟨some "a", 80, 2⟩, ⟨some "b", 60, 1⟩]) := by
  have hft : tierTasks rs tier = matchingTasks rs tier := by
    unfold tierTasks matchingTasks
    apply List.filter_congr
    intro r _
    cases h : r.score <;> simp [h]
  have key : calculateTierScore rs tier =
      (if matchingTasks rs tier = [] then (0, [])
       else if ((matchingTasks rs tier).map weightOf).sum = 0 then (0, [])
       else
        (((matchingTasks rs tier).map fun t => scoreVal t * weightOf t).sum
            / ((matchingTasks rs tier).map weightOf).sum,
         (matchingTasks rs tier).map mkBreakdown)) := by
    simp only [calculateTierScore, hft]
  refine ⟨hft, ?_, ?_, ?_, ?_⟩
  · intro h
    rw [key, if_pos h]
  · intro h
    rw [key]
    by_cases hm : matchingTasks rs tier = [] <;> simp [hm, h]
  · intro h1 h2
    rw [key, if_neg h1, if_neg h2]
  · have hts : tierTasks c5ExampleResults "elementary" = c5ExampleResults := by
      norm_num [tierTasks, getTier, c5ExampleResults]
    have hw : ((tierTasks c5ExampleResults "elementary").map weightOf).sum = 3 := by
      rw [hts]
      norm_num [c5ExampleResults, weightOf]
    have hs : ((tierTasks c5ExampleResults "elementary").map
        fun t => scoreVal t * weightOf t).sum = 220 := by
      rw [hts]
      norm_num [c5ExampleResults, weightOf, scoreVal]
    simp only [calculateTierScore, hts, hw, hs]
    norm_num [c5ExampleResults, mkBreakdown, breakdownName, scoreVal, weightOf]
    exact List.cons_ne_nil _ _

/-- Python `round(x, nd)` on the rational model: round half to even at `nd`
decimal digits. -/
def pyRound (q : ℚ) (nd : ℕ) : ℚ :=
  let scaled := q * 10 ^ nd
  let f : ℤ := ⌊scaled⌋
  let r := scaled - f
  let i : ℤ :=
    if r < 1/2 then f
    else if 1/2 < r then f + 1
    else if f % 2 = 0 then f else f + 1
  (i : ℚ) / 10 ^ nd

/-- The aggregate-statistics dict returned by
`analyzer/statistics.py` `aggregate_scores`. -/
structure AggregateStats where
  mean : Option ℚ
  median : Option ℚ
  std_dev : Option ℚ
  min : Option ℚ
  max : Option ℚ
  count : ℕ
  confidence_interval_95 : Option (ℚ × ℚ)
deriving DecidableEq, Repr

/-- The body of `aggregate_scores` applied to the extracted non-null scores;
`sqrt` abstracts `math.sqrt` (floats have no exact rational square root). -/
def aggOfScores (sqrt : ℚ → ℚ) (scores : List ℚ) : AggregateStats :=
  if scores = [] then ⟨none, none, none, none, none, 0, none⟩
  else
    let n := scores.length
    let mean := scores.sum / (n : ℚ)
    let sorted := scores.mergeSort fun a b => decide (a ≤ b)
    let median :=
      if n % 2 = 0 then (sorted.getD (n / 2 - 1) 0 + sorted.getD (n / 2) 0) / 2
      else sorted.getD (n / 2) 0
    let variance := (scores.map fun s => (s - mean) ^ 2).sum
      / ((Max.max (n - 1) 1 : ℕ) : ℚ)
    let std_dev := sqrt variance
    let margin := if 1 < n then 1.96 * std_dev / sqrt (n : ℚ) else 0
    { mean := some (pyRound mean 2)
      median := some (pyRound median 2)
      std_dev := some (pyRound std_dev 2)
      min := some (pyRound (scores.min?.getD 0) 2)
      max := some (pyRound (scores.max?.getD 0) 2)
      count := n
      confidence_interval_95 :=
        some (pyRound (mean - margin) 2, pyRound (mean + margin) 2) }

/-- The non-null scores of a result list, in order (the list comprehension
`[r["score"] for r in results if r.get("score") is not None]`). -/
def nonNullScores (results : List TaskResult) : List ℚ :=
  results.filterMap (·.score)

/-- `analyzer/statistics.py` `aggregate_scores(results)`: extract the
non-null scores, then aggregate. -/
def aggregateScores (sqrt : ℚ → ℚ) (results : List TaskResult) : AggregateStats :=
  aggOfScores sqrt (nonNullScores results)

/-- Spec-side: the arithmetic mean. -/
def meanSpec (scores : List ℚ) : ℚ := scores.sum / (scores.length : ℚ)

/-- Spec-side: sample variance with divisor `max(n-1, 1)`. -/
def sampleVariance (scores : List ℚ) : ℚ :=
  (scores.map fun s => (s - meanSpec scores) ^ 2).sum
    / ((Max.max (scores.length - 1) 1 : ℕ) : ℚ)

/-- Spec-side: the 95% confidence margin `1.96 * std_dev / sqrt(n)`. -/
def ciMargin (sqrt : ℚ → ℚ) (scores : List ℚ) : ℚ :=
  1.96 * sqrt (sampleVariance scores) / sqrt (scores.length : ℚ)

/-- Python list indexing `l[i]`: negative indices count from the end,
out-of-range access raises IndexError (modelled as `none`). -/
def pyIndex (l : List ℚ) (i : ℤ) : Option ℚ :=
  if 0 ≤ i then l[i.toNat]?
  else if 0 ≤ i + l.length then l[(i + l.length).toNat]?
  else none

/-- `analyzer/statistics.py` `percentile(scores, p)`.  In the `f == c`
branch `k` is an integer, so Python's `int(k)` is its floor. -/
def percentile (scores : List ℚ) (p : ℚ) : Option ℚ :=
  if scores = [] then some 0
  else
    let sorted := scores.mergeSort fun a b => decide (a ≤ b)
    let k : ℚ := (p / 100) * ((sorted.length : ℚ) - 1)
    let f : ℤ := ⌊k⌋
    let c : ℤ := ⌈k⌉
    if f = c then pyIndex sorted f
    else
      match pyIndex sorted f, pyIndex sorted c with
      | some a, some b => some (a * ((c : ℚ) - k) + b * (k - (f : ℚ)))
      | _, _ => none

/-- Three results whose scores are 10, 10 and 11: the arithmetic mean 31/3
is not representable at two decimal digits. -/
def c6CexResults : List TaskResult :=
  [{ score := some 10 }, { score := some 10 }, { score := some 11 }]

lemma filterMap_score_filter (rs : List TaskResult) :
    (rs.filter fun r => r.score.isSome).filterMap (·.score) = rs.filterMap (·.score) := by
  induction rs with
  | nil => simp
  | cons a t ih => cases h : a.score <;> simp [List.filter_cons, h, ih]

lemma pyRound_zero (nd : ℕ) : pyRound 0 nd = 0 := by
  norm_num [pyRound]

lemma sampleVariance_singleton (s : ℚ) : sampleVariance [s] = 0 := by
  simp [sampleVariance, meanSpec]

lemma qleB_trans (a b c : ℚ) (h1 : decide (a ≤ b) = true)
    (h2 : decide (b ≤ c) = true) : decide (a ≤ c) = true := by
  simp only [decide_eq_true_eq] at h1 h2 ⊢
  exact le_trans h1 h2

lemma qleB_total (a b : ℚ) : (decide (a ≤ b) || decide (b ≤ a)) = true := by
  simp only [Bool.or_eq_true, decide_eq_true_eq]
  exact le_total a b

lemma sortedQ (l : List ℚ) :
    (l.mergeSort fun a b => decide (a ≤ b)).Pairwise (· ≤ ·) :=
  (List.sorted_mergeSort qleB_trans qleB_total l).imp fun h => of_decide_eq_true h

lemma pairwise_head_le {a : ℚ} {t : List ℚ} (h : (a :: t).Pairwise (· ≤ ·)) :
    ∀ x ∈ a :: t, a ≤ x := by
  intro x hx
  rcases List.mem_cons.mp hx with rfl | hx2
  · exact le_refl x
  · exact List.rel_of_pairwise_cons h hx2

lemma pairwise_le_getLast :
    ∀ (l : List ℚ), l.Pairwise (· ≤ ·) → ∀ (w : l ≠ []), ∀ x ∈ l, x ≤ l.getLast w := by
  intro l
  induction l with
  | nil => intro _ w; exact absurd rfl w
  | cons a t ih =>
    intro hp w x hx
    cases t with
    | nil =>
      simp only [List.mem_singleton] at hx
      subst hx
      simp [List.getLast]
    | cons b t2 =>
      rw [List.getLast_cons (List.cons_ne_nil b t2)]
      rcases List.mem_cons.mp hx with rfl | hx2
      · exact List.rel_of_pairwise_cons hp (List.getLast_mem _)
      · exact ih (List.Pairwise.of_cons hp) (List.cons_ne_nil b t2) x hx2

/-- C6 counterexample: for scores 10, 10, 11 the reported `mean` is the
two-decimal rounding 10.33, which is not the arithmetic mean 31/3. -/
theorem aggregateScores_mean_cex :
    (aggregateScores (fun _ => 0) c6CexResults).mean = some (1033/100)
    ∧ ((1033 : ℚ)/100) ≠ (10 + 10 + 11) / 3 := by
  constructor
  · have hsc : nonNullScores c6CexResults = [10, 10, 11] := by
      simp [nonNullScores, c6CexResults]
    have hsum : ([10, 10, 11] : List ℚ).sum = 31 := by norm_num
    have hround : pyRound ((31 : ℚ) / 3) 2 = 1033/100 := by
      have hfl : ⌊(31 : ℚ) / 3 * 10 ^ 2⌋ = 1033 := by norm_num
      simp only [pyRound, hfl]
      norm_num
    show (aggOfScores (fun _ => 0) (nonNullScores c6CexResults)).mean = some (1033/100)
    rw [hsc]
    simp only [aggOfScores, if_neg (List.cons_ne_nil (10:ℚ) [10, 11]), hsum]
    norm_num [hround]
  · norm_num

/-- C6 (amended): `aggregate_scores` operates only over non-null scores:
`count` is their number and null scores never affect any field; when no
score remains every field is `None` except `count = 0`; `mean` is the
arithmetic mean rounded to 2 decimals; `std_dev` is the rounded square root
of the sample variance with divisor `max(n-1, 1)`, so a single sample gives
`std_dev = 0`; the 95% confidence interval is
`mean ± 1.96*std_dev/sqrt(n)` rounded to 2 decimals, and `None` exactly when
`count = 0`.  Proved for any model `sqrt` of `math.sqrt` with `sqrt 0 = 0`. -/
theorem aggregateScores_spec (sqrt : ℚ → ℚ) (rs : List TaskResult)
    (hsq : sqrt 0 = 0) :
    (aggregateScores sqrt rs).count = (nonNullScores rs).length
    ∧ aggregateScores sqrt rs = aggregateScores sqrt (rs.filter fun r => r.score.isSome)
    ∧ (nonNullScores rs = [] →
        aggregateScores sqrt rs = ⟨none, none, none, none, none, 0, none⟩)
    ∧ (nonNullScores rs ≠ [] →
        (aggregateScores sqrt rs).mean = some (pyRound (meanSpec (nonNullScores rs)) 2))
    ∧ (nonNullScores rs ≠ [] →
        (aggregateScores sqrt rs).std_dev
          = some (pyRound (sqrt (sampleVariance (nonNullScores rs))) 2))
    ∧ ((nonNullScores rs).length = 1 → (aggregateScores sqrt rs).std_dev = some 0)
    ∧ ((aggregateScores sqrt rs).confidence_interval_95 = none
        ↔ (aggregateScores sqrt rs).count = 0)
    ∧ (nonNullScores rs ≠ [] →
        (aggregateScores sqrt rs).confidence_interval_95 = some
          (pyRound (meanSpec (nonNullScores rs) - ciMargin sqrt (nonNullScores rs)) 2,
           pyRound (meanSpec (nonNullScores rs) + ciMargin sqrt (nonNullScores rs)) 2)) := by
  have hfilter : aggregateScores sqrt rs
      = aggregateScores sqrt (rs.filter fun r => r.score.isSome) := by
    unfold aggregateScores nonNullScores
    rw [filterMap_score_filter]
  by_cases h : nonNullScores rs = []
  · refine ⟨?_, hfilter, ?_, ?_, ?_, ?_, ?_, ?_⟩
    · show (aggOfScores sqrt (nonNullScores rs)).count = _
      rw [h]
      rfl
    · intro _
      show aggOfScores sqrt (nonNullScores rs) = _
      rw [h]
      rfl
    · exact fun hne => absurd h hne
    · exact fun hne => absurd h hne
    · intro h1
      rw [h] at h1
      simp at h1
    · show (aggOfScores sqrt (nonNullScores rs)).confidence_interval_95 = none
        ↔ (aggOfScores sqrt (nonNullScores rs)).count = 0
      rw [h]
      simp [aggOfScores]
    · exact fun hne => absurd h hne
  · have hn : 0 < (nonNullScores rs).length := List.length_pos.mpr h
    have hmean : (aggregateScores sqrt rs).mean
        = some (pyRound (meanSpec (nonNullScores rs)) 2) := by
      show (aggOfScores sqrt (nonNullScores rs)).mean = _
      simp only [aggOfScores, if_neg h, meanSpec]
    have hstd : (aggregateScores sqrt rs).std_dev
        = some (pyRound (sqrt (sampleVariance (nonNullScores rs))) 2) := by
      show (aggOfScores sqrt (nonNullScores rs)).std_dev = _
      simp only [aggOfScores, if_neg h, sampleVariance, meanSpec]
    have hcount : (aggregateScores sqrt rs).count = (nonNullScores rs).length := by
      show (aggOfScores sqrt (nonNullScores rs)).count = _
      simp only [aggOfScores, if_neg h]
    refine ⟨hcount, hfilter, fun hne => absurd hne h, fun _ => hmean, fun _ => hstd, ?_, ?_, ?_⟩
    · intro h1
      obtain ⟨s, hs⟩ := List.length_eq_one.mp h1
      rw [hs] at hstd
      rw [hstd, sampleVariance_singleton, hsq, pyRound_zero]
    · constructor
      · intro hci
        exfalso
        revert hci
        show (aggOfScores sqrt (nonNullScores rs)).confidence_interval_95 = none → False
        simp only [aggOfScores, if_neg h]
        simp
      · intro hc
        rw [hcount] at hc
        exact absurd hc (by omega)
    · intro _
      show (aggOfScores sqrt (nonNullScores rs)).confidence_interval_95 = _
      simp only [aggOfScores, if_neg h]
      by_cases h1 : 1 < (nonNullScores rs).length
      · simp only [if_pos h1, ciMargin, sampleVariance, meanSpec]
      · have h2 : (nonNullScores rs).length = 1 := by omega
        obtain ⟨s, hs⟩ := List.length_eq_one.mp h2
        rw [hs] at h1 ⊢
        have hm : ciMargin sqrt [s] = 0 := by
          simp [ciMargin, sampleVariance_singleton, hsq]
        simp [hm, h1]
        simp [meanSpec]

/-- Witness for C6: the amended aggregate claim instantiated at the empty
result list and the zero square-root model. -/
theorem aggregateScores_spec_witness :
    aggregateScores (fun _ => 0) [] = ⟨none, none, none, none, none, 0, none⟩ :=
  (aggregateScores_spec (fun _ => 0) [] rfl).2.2.1 rfl

/-- C7: `percentile([], p) = 0` for every p, and for every non-empty list
`percentile(xs, 0)` is the minimum of `xs` and `percentile(xs, 100)` its
maximum (the endpoint behavior of R-type-7 interpolation at index
`p/100*(n-1)`). -/
theorem percentile_spec (xs : List ℚ) (p : ℚ) :
    percentile [] p = some 0
    ∧ (xs ≠ [] → ∃ m, percentile xs 0 = some m ∧ m ∈ xs ∧ ∀ x ∈ xs, m ≤ x)
    ∧ (xs ≠ [] → ∃ M, percentile xs 100 = some M ∧ M ∈ xs ∧ ∀ x ∈ xs, x ≤ M) := by
  have hlen : (xs.mergeSort fun a b => decide (a ≤ b)).length = xs.length :=
    List.length_mergeSort xs
  have hsne0 : xs ≠ [] → (xs.mergeSort fun a b => decide (a ≤ b)) ≠ [] := by
    intro hne hcon
    rw [hcon] at hlen
    exact hne (List.eq_nil_of_length_eq_zero hlen.symm)
  refine ⟨by simp [percentile], ?_, ?_⟩
  · intro hne
    have hsne := hsne0 hne
    obtain ⟨a, t, hat⟩ := List.exists_cons_of_ne_nil hsne
    have hp : (xs.mergeSort fun a b => decide (a ≤ b)).Pairwise (· ≤ ·) := sortedQ xs
    refine ⟨a, ?_, ?_, ?_⟩
    · simp only [percentile, if_neg hne]
      norm_num [pyIndex, hat]
    · exact List.mem_mergeSort.mp (hat ▸ List.mem_cons_self a t)
    · intro x hx
      have hx2 : x ∈ a :: t := hat ▸ List.mem_mergeSort.mpr hx
      exact pairwise_head_le (hat ▸ hp) x hx2
  · intro hne
    have hsne := hsne0 hne
    have hp : (xs.mergeSort fun a b => decide (a ≤ b)).Pairwise (· ≤ ·) := sortedQ xs
    have hpos : 0 < xs.length := List.length_pos.mpr hne
    refine ⟨(xs.mergeSort fun a b => decide (a ≤ b)).getLast hsne, ?_, ?_, ?_⟩
    · have hk : (100 : ℚ) / 100 * (((xs.mergeSort fun a b => decide (a ≤ b)).length : ℚ) - 1)
          = (((xs.length : ℤ) - 1 : ℤ) : ℚ) := by
        rw [hlen]
        push_cast
        norm_num
      simp only [percentile, if_neg hne, hk, Int.floor_intCast, Int.ceil_intCast]
      rw [if_pos trivial]
      have h0 : (0 : ℤ) ≤ (xs.length : ℤ) - 1 := by omega
      have htn : ((xs.length : ℤ) - 1).toNat
          = (xs.mergeSort fun a b => decide (a ≤ b)).length - 1 := by
        rw [hlen]
        omega
      simp only [pyIndex, if_pos h0, htn]
      rw [← List.getLast?_eq_getElem?, List.getLast?_eq_getLast _ hsne]
    · exact List.mem_mergeSort.mp (List.getLast_mem hsne)
    · intro x hx
      exact pairwise_le_getLast _ hp hsne x (List.mem_mergeSort.mpr hx)

/-- `r.get("task_name") or r.get("benchmark_id") or ""`: Python `or` keeps
the first truthy value, and both `None` and `""` are falsy. -/
def resultKey (r : TaskResult) : String :=
  match r.task_name.bind id with
  | some s => if s = "" then r.benchmark_id.getD "" else s
  | none => r.benchmark_id.getD ""

/-- The baseline index `baseline_by_task`: built first-to-last over results
with a non-empty key, so a repeated key keeps the last write; looking up a
key that was never inserted gives `None`. -/
def baselineLookup (base : List TaskResult) (key : String) : Option TaskResult :=
  if key = "" then none
  else (base.filter fun r => resultKey r == key).getLast?

/-- One per-task entry of the regression report (scores and deltas are the
rounded display values the code stores). -/
structure TaskReg where
  task_name : String
  current_score : ℚ
  baseline_score : ℚ
  delta : ℚ
  delta_percent : ℚ
  severity : Severity
  education_tier : Option String
deriving DecidableEq, Repr

/-- One iteration of the `detect_regressions` loop: `none` when the current
result is skipped (null score, empty key, no baseline match, or baseline
score null); otherwise the per-task entry paired with the un-rounded delta
that the loop accumulates into `total_delta`. -/
def matchEntry (base : List TaskResult) (thr : ℚ) (r : TaskResult) :
    Option (TaskReg × ℚ) :=
  match r.score with
  | none => none
  | some cs =>
      let key := resultKey r
      if key = "" then none
      else
        match baselineLookup base key with
        | none => none
        | some b =>
            match b.score with
            | none => none
            | some bs =>
                some (⟨key, pyRound cs 2, pyRound bs 2, pyRound (cs - bs) 2,
                       if bs ≠ 0 then pyRound ((cs - bs) / bs * 100) 1 else 0,
                       classifySeverity cs bs thr, getTier r⟩, cs - bs)

/-- All matched per-task entries, in current-result order. -/
def matchedPairs (cur base : List TaskResult) (thr : ℚ) : List (TaskReg × ℚ) :=
  cur.filterMap (matchEntry base thr)

/-- The matched per-task entries without the raw deltas. -/
def matchedTasks (cur base : List TaskResult) (thr : ℚ) : List TaskReg :=
  (matchedPairs cur base thr).map Prod.fst

/-- The worst-first sort rank of `detect_regressions` (`severity_order`). -/
def severityRank : Severity → ℕ
  | .critical => 0
  | .severe => 1
  | .moderate => 2
  | .minor => 3
  | .none => 4

/-- The dict returned by `detect_regressions`. -/
structure RegressionReport where
  has_regression : Bool
  overall_severity : Severity
  regression_count : ℕ
  total_tasks_compared : ℕ
  average_delta : ℚ
  tasks : List TaskReg
deriving DecidableEq, Repr

/-- The tail of `detect_regressions` once the loop has produced the matched
entries: counts, worst-first sort (Python's stable `list.sort`), average
delta and overall severity. -/
def reportOfMatched (ps : List (TaskReg × ℚ)) : RegressionReport :=
  let task_regressions := ps.map Prod.fst
  let regression_count :=
    task_regressions.countP fun t => decide (t.severity ≠ Severity.none)
  let total_delta := (ps.map Prod.snd).sum
  let sorted := task_regressions.mergeSort fun a b =>
    decide (severityRank a.severity ≤ severityRank b.severity)
  let matched_count := sorted.length
  let avg_delta :=
    if 0 < matched_count then pyRound (total_delta / (matched_count : ℚ)) 2 else 0
  let severities : List Severity := sorted.map fun t => t.severity
  let overall :=
    if Severity.critical ∈ severities then Severity.critical
    else if Severity.severe ∈ severities then Severity.severe
    else if (matched_count : ℚ) * 0.5 < (regression_count : ℚ) then Severity.moderate
    else if 0 < regression_count then Severity.minor
    else Severity.none
  ⟨decide (0 < regression_count), overall, regression_count, matched_count,
   avg_delta, sorted⟩

/-- `analyzer/regression.py` `detect_regressions(current, baseline, threshold)`. -/
def detectRegressions (cur base : List TaskResult) (thr : ℚ) : RegressionReport :=
  reportOfMatched (matchedPairs cur base thr)

/-- Spec-side overall severity over the matched tasks: CRITICAL if any task
is critical; else SEVERE if any severe; else MODERATE when the regressed
count exceeds half the matched count; else MINOR when any regression exists;
else NONE. -/
def overallSpec (M : List TaskReg) : Severity :=
  if M.any fun t => decide (t.severity = Severity.critical) then .critical
  else if M.any fun t => decide (t.severity = Severity.severe) then .severe
  else if (M.length : ℚ) / 2
      < ((M.countP fun t => decide (t.severity ≠ Severity.none)) : ℚ) then .moderate
  else if 0 < M.countP fun t => decide (t.severity ≠ Severity.none) then .minor
  else .none

/-- Spec-side: a current result is compared exactly when its score is
non-null, its key is non-empty, and a baseline entry with the same key and a
non-null score exists. -/
def matchableB (base : List TaskResult) (r : TaskResult) : Bool :=
  r.score.isSome && !(resultKey r == "")
    && ((baselineLookup base (resultKey r)).bind (·.score)).isSome

lemma filterMap_congr_mem {α β : Type} (f g : α → Option β) (l : List α)
    (h : ∀ a ∈ l, f a = g a) : l.filterMap f = l.filterMap g := by
  induction l with
  | nil => rfl
  | cons a t ih =>
    rw [List.filterMap_cons, List.filterMap_cons, h a (List.mem_cons_self a t),
      ih fun x hx => h x (List.mem_cons_of_mem a hx)]

lemma matchEntry_isSome (base : List TaskResult) (thr : ℚ) (r : TaskResult) :
    (matchEntry base thr r).isSome = matchableB base r := by
  unfold matchEntry matchableB
  cases h1 : r.score
  · simp
  · by_cases h2 : resultKey r = ""
    · simp [h2]
    · cases h3 : baselineLookup base (resultKey r)
      · simp [h2, h3]
      · rename_i b
        cases h4 : b.score <;> simp [h2, h3, h4]

lemma matchEntry_skip (base : List TaskResult) (thr : ℚ) (r : TaskResult)
    (h : r.score = none ∨ resultKey r = ""
      ∨ (baselineLookup base (resultKey r)).bind (fun b => b.score) = none) :
    matchEntry base thr r = none := by
  have hb : matchableB base r = false := by
    unfold matchableB
    rcases h with h | h | h
    · simp [h]
    · simp [h]
    · simp [h]
  have hs := matchEntry_isSome base thr r
  rw [hb] at hs
  cases hme : matchEntry base thr r with
  | none => rfl
  | some v =>
    rw [hme] at hs
    simp at hs

lemma baselineLookup_skip (pre post : List TaskResult) (rb : TaskResult)
    (k : String) (hk : resultKey rb ≠ k) :
    baselineLookup (pre ++ rb :: post) k = baselineLookup (pre ++ post) k := by
  unfold baselineLookup
  by_cases h0 : k = ""
  · simp [h0]
  · have hb : (resultKey rb == k) = false := by
      rw [beq_eq_false_iff_ne]
      exact hk
    simp [h0, List.filter_append, List.filter_cons, hb]

lemma matchEntry_base_skip (pre post : List TaskResult) (rb : TaskResult)
    (thr : ℚ) (c : TaskResult) (h : resultKey c ≠ resultKey rb) :
    matchEntry (pre ++ rb :: post) thr c = matchEntry (pre ++ post) thr c := by
  cases h1 : c.score
  · simp only [matchEntry, h1]
  · simp only [matchEntry, h1]
    rw [baselineLookup_skip pre post rb (resultKey c) (Ne.symm h)]

lemma reportOfMatched_overall (ps : List (TaskReg × ℚ)) :
    (reportOfMatched ps).overall_severity = overallSpec (ps.map Prod.fst) := by
  simp only [reportOfMatched, overallSpec]
  have hlen : ((ps.map Prod.fst).mergeSort fun a b =>
      decide (severityRank a.severity ≤ severityRank b.severity)).length
        = (ps.map Prod.fst).length :=
    List.length_mergeSort (ps.map Prod.fst)
  have hcrit : ∀ s : Severity,
      (s ∈ ((ps.map Prod.fst).mergeSort fun a b =>
          decide (severityRank a.severity ≤ severityRank b.severity)).map
            fun t => t.severity)
        ↔ ((ps.map Prod.fst).any fun t => decide (t.severity = s)) = true := by
    intro s
    simp only [List.mem_map, List.any_eq_true, List.mem_mergeSort,
      decide_eq_true_eq]
  have hmul : ((ps.map Prod.fst).length : ℚ) * 0.5
      = ((ps.map Prod.fst).length : ℚ) / 2 := by
    ring
  simp only [hcrit, hlen, hmul]

/-- C4: `detect_regressions` derives `overall_severity` from the matched
tasks exactly by the spec's rule (any CRITICAL → critical, else any SEVERE →
severe, else regressed > half of matched → moderate, else any regression →
minor, else none); `total_tasks_compared` counts exactly the current results
with a non-null score, a non-empty key and a baseline match with non-null
score; and a result that is unmatched on either side (or null-scored) can be
inserted or removed without changing the report at all. -/
theorem detectRegressions_spec (cur base : List TaskResult) (thr : ℚ) :
    (detectRegressions cur base thr).overall_severity
      = overallSpec (matchedTasks cur base thr)
    ∧ (detectRegressions cur base thr).total_tasks_compared
      = cur.countP (matchableB base)
    ∧ (∀ pre post r, (r.score = none ∨ resultKey r = ""
        ∨ (baselineLookup base (resultKey r)).bind (fun b => b.score) = none) →
        detectRegressions (pre ++ r :: post) base thr
          = detectRegressions (pre ++ post) base thr)
    ∧ (∀ pre post rb, (∀ c ∈ cur, resultKey c ≠ resultKey rb) →
        detectRegressions cur (pre ++ rb :: post) thr
          = detectRegressions cur (pre ++ post) thr) := by
  refine ⟨reportOfMatched_overall _, ?_, ?_, ?_⟩
  · show (reportOfMatched (matchedPairs cur base thr)).total_tasks_compared = _
    simp only [reportOfMatched]
    rw [List.length_mergeSort, List.length_map, matchedPairs,
      List.length_filterMap_eq_countP]
    exact List.countP_congr fun r _ => by rw [matchEntry_isSome]
  · intro pre post r h
    have hskip := matchEntry_skip base thr r h
    show reportOfMatched _ = reportOfMatched _
    congr 1
    simp [matchedPairs, List.filterMap_cons, hskip]
  · intro pre post rb hk
    show reportOfMatched _ = reportOfMatched _
    congr 1
    exact filterMap_congr_mem _ _ cur
      fun c hc => matchEntry_base_skip pre post rb thr c (hk c hc)

/-- A collected tier value (`if tier:`): truthy means non-None and
non-empty. -/
def truthyTier (r : TaskResult) : Option String :=
  match getTier r with
  | some t => if t = "" then none else some t
  | none => none

/-- First-encounter deduplication: the model of one admissible iteration
order of the Python `set` (set iteration order is unspecified). -/
def insertOnce (acc : List String) (s : String) : List String :=
  if s ∈ acc then acc else acc ++ [s]

/-- The distinct truthy `education_tier` values over all models' results
(`_get_radar_dimensions` reads each model entry only through its "results"
list, so a model entry is modelled as that list). -/
def collectedTiers (mrs : List (List TaskResult)) : List String :=
  mrs.flatten.foldl
    (fun acc r =>
      match truthyTier r with
      | some t => insertOnce acc t
      | none => acc) []

/-- The distinct truthy task names over all models' results. -/
def collectedTaskNames (mrs : List (List TaskResult)) : List String :=
  mrs.flatten.foldl
    (fun acc r =>
      match r.task_name.bind id with
      | some t => if t = "" then acc else insertOnce acc t
      | none => acc) []

/-- The hard-coded `order` list of `_get_radar_dimensions` — it spells
"high_school", "undergraduate", "graduate", which are not the canonical
tier values of `EducationTier` ("highschool", "undergrad", "grad"). -/
def radarOrderList : List String :=
  ["elementary", "high_school", "undergraduate", "graduate"]

/-- `order.index(t) if t in order else 99`. -/
def radarKey (t : String) : ℕ :=
  match radarOrderList.indexOf? t with
  | some i => i
  | none => 99

/-- `analyzer/comparisons.py` `_get_radar_dimensions(model_results)`. -/
def getRadarDimensions (mrs : List (List TaskResult)) : List String :=
  let tiers := collectedTiers mrs
  if tiers ≠ [] then
    tiers.mergeSort fun a b => decide (radarKey a ≤ radarKey b)
  else
    (collectedTaskNames mrs).mergeSort fun a b => decide (a ≤ b)

/-- One model whose results carry the canonical tiers "grad" and
"highschool", encountered in that order. -/
def c8CexModels1 : List (List TaskResult) :=
  [[{ education_tier := some (some "grad") },
    { education_tier := some (some "highschool") }]]

/-- One model whose results carry two non-canonical tiers, encountered in
non-alphabetical order. -/
def c8CexModels2 : List (List TaskResult) :=
  [[{ education_tier := some (some "vocational") },
    { education_tier := some (some "kindergarten") }]]

lemma rkB_trans (a b c : String) (h1 : decide (radarKey a ≤ radarKey b) = true)
    (h2 : decide (radarKey b ≤ radarKey c) = true) :
    decide (radarKey a ≤ radarKey c) = true := by
  simp only [decide_eq_true_eq] at h1 h2 ⊢
  exact le_trans h1 h2

lemma rkB_total (a b : String) :
    (decide (radarKey a ≤ radarKey b) || decide (radarKey b ≤ radarKey a)) = true := by
  simp only [Bool.or_eq_true, decide_eq_true_eq]
  exact Nat.le_total _ _

lemma strB_trans (a b c : String) (h1 : decide (a ≤ b) = true)
    (h2 : decide (b ≤ c) = true) : decide (a ≤ c) = true := by
  simp only [decide_eq_true_eq] at h1 h2 ⊢
  exact le_trans h1 h2

lemma strB_total (a b : String) :
    (decide (a ≤ b) || decide (b ≤ a)) = true := by
  simp only [Bool.or_eq_true, decide_eq_true_eq]
  exact le_total a b

unseal List.mergeSort List.merge in
/-- C8 counterexample: with canonical tiers "grad" and "highschool"
(set-iteration order grad first) the radar dimensions come out
["grad", "highschool"], not the fixed tier order ["highschool", "grad"];
with unknown tiers "vocational", "kindergarten" (encountered in that order)
they come out in encounter order, not alphabetically. -/
theorem getRadarDimensions_cex :
    getRadarDimensions c8CexModels1 = ["grad", "highschool"]
    ∧ (["grad", "highschool"] : List String) ≠ ["highschool", "grad"]
    ∧ getRadarDimensions c8CexModels2 = ["vocational", "kindergarten"]
    ∧ (["vocational", "kindergarten"] : List String) ≠ ["kindergarten", "vocational"] :=
  ⟨by decide, by decide, by decide, by decide⟩

/-- C8 (amended): the radar dimension list is a permutation of the distinct
truthy tiers present, in nondecreasing order of the key "position in the
hard-coded list [elementary, high_school, undergraduate, graduate], else
99" (ties keep set-iteration order); since the canonical tier values
highschool/undergrad/grad are not in that list, they all get key 99 — so
only "elementary" is ordered by the fixed tier order and nothing is
re-sorted alphabetically; with no tiers present, the distinct truthy task
names sorted ascending. -/
theorem getRadarDimensions_spec (mrs : List (List TaskResult)) :
    (collectedTiers mrs ≠ [] →
      (getRadarDimensions mrs).Perm (collectedTiers mrs)
      ∧ (getRadarDimensions mrs).Pairwise fun a b => radarKey a ≤ radarKey b)
    ∧ (collectedTiers mrs = [] →
      (getRadarDimensions mrs).Perm (collectedTaskNames mrs)
      ∧ (getRadarDimensions mrs).Pairwise fun a b => a ≤ b)
    ∧ radarKey "elementary" = 0 ∧ radarKey "highschool" = 99
    ∧ radarKey "undergrad" = 99 ∧ radarKey "grad" = 99 := by
  refine ⟨?_, ?_, by decide, by decide, by decide, by decide⟩
  · intro h
    have hdef : getRadarDimensions mrs
        = (collectedTiers mrs).mergeSort fun a b => decide (radarKey a ≤ radarKey b) := by
      simp only [getRadarDimensions, if_pos h]
    constructor
    · rw [hdef]
      exact List.mergeSort_perm _ _
    · rw [hdef]
      exact (List.sorted_mergeSort rkB_trans rkB_total _).imp
        fun hb => of_decide_eq_true hb
  · intro h
    have hdef : getRadarDimensions mrs
        = (collectedTaskNames mrs).mergeSort fun a b => decide (a ≤ b) := by
      simp only [getRadarDimensions, if_neg (not_not_intro h)]
    constructor
    · rw [hdef]
      exact List.mergeSort_perm _ _
    · rw [hdef]
      exact (List.sorted_mergeSort strB_trans strB_total _).imp
        fun hb => of_decide_eq_true hb

/-- Python-dict grouping step: append to an existing group (keys keep
first-insertion order) or add a new group at the end.  Group keys are
`Option String`, `none` modelling Python `None`. -/
def addToGroup {β : Type} (gs : List (Option String × List β)) (k : Option String)
    (b : β) : List (Option String × List β) :=
  if gs.any fun g => decide (g.1 = k) then
    gs.map fun g => if g.1 = k then (g.1, g.2 ++ [b]) else g
  else gs ++ [(k, [b])]

/-- The grouping loop shared by `score_by_category` and `analyze_trends`:
iterate in list order, keyed by `key`. -/
def groupBy {β : Type} (key : β → Option String) (l : List β) :
    List (Option String × List β) :=
  l.foldl (fun gs b => addToGroup gs (key b) b) []

/-- `r.get("education_tier", "unknown")`: a present key keeps its value
(possibly Python `None`, modelled as `none`); only an absent key falls back
to the literal "unknown". -/
def categoryOfTier (r : TaskResult) : Option String :=
  match r.education_tier with
  | some v => v
  | none => some "unknown"

/-- `analyzer/statistics.py` `score_by_category(results, "education_tier")`;
this is exactly the `by_tier` mapping `compare_model_results` builds for
each model entry (`comparisons.py` line 37). -/
def scoreByCategory (sqrt : ℚ → ℚ) (rs : List TaskResult) :
    List (Option String × AggregateStats) :=
  (groupBy categoryOfTier rs).map fun g => (g.1, aggregateScores sqrt g.2)

lemma lookup_cons_pair {β : Type} (gk k2 : Option String) (gv : β)
    (t : List (Option String × β)) :
    ((gk, gv) :: t).lookup k2 = if k2 = gk then some gv else t.lookup k2 := by
  by_cases h : k2 = gk
  · subst h
    simp [List.lookup_cons]
  · have hb : (k2 == gk) = false := beq_eq_false_iff_ne.mpr h
    simp [List.lookup_cons, hb, h]

lemma lookup_map_update {β : Type} (gs : List (Option String × List β))
    (k k2 : Option String) (b : β) :
    (gs.map fun g => if g.1 = k then (g.1, g.2 ++ [b]) else g).lookup k2
      = if k2 = k then (gs.lookup k2).map fun v => v ++ [b] else gs.lookup k2 := by
  induction gs with
  | nil => simp
  | cons g t ih =>
    obtain ⟨gk, gv⟩ := g
    rw [List.map_cons]
    by_cases h1 : gk = k
    · rw [if_pos h1, lookup_cons_pair, lookup_cons_pair]
      by_cases h2 : k2 = gk
      · rw [if_pos h2, if_pos h2, if_pos (h2.trans h1)]
        rfl
      · rw [if_neg h2, if_neg h2, ih]
    · rw [if_neg h1, lookup_cons_pair, lookup_cons_pair]
      by_cases h2 : k2 = gk
      · rw [if_pos h2, if_pos h2, if_neg (h2 ▸ h1)]
      · rw [if_neg h2, if_neg h2, ih]

lemma any_fst_eq_lookup_isSome {β : Type} (gs : List (Option String × List β))
    (k : Option String) :
    (gs.any fun g => decide (g.1 = k)) = (gs.lookup k).isSome := by
  induction gs with
  | nil => rfl
  | cons g t ih =>
    obtain ⟨gk, gv⟩ := g
    rw [List.any_cons, lookup_cons_pair]
    by_cases h : k = gk
    · simp [h]
    · have hne : ¬gk = k := fun hc => h hc.symm
      simp [h, hne, ih]

lemma lookup_append_single_ne {β : Type} (gs : List (Option String × List β))
    (k k2 : Option String) (v : List β) (h : k2 ≠ k) :
    (gs ++ [(k, v)]).lookup k2 = gs.lookup k2 := by
  induction gs with
  | nil => simp [lookup_cons_pair, h]
  | cons g t ih =>
    obtain ⟨gk, gv⟩ := g
    rw [List.cons_append, lookup_cons_pair, lookup_cons_pair, ih]

lemma lookup_append_single_eq {β : Type} (gs : List (Option String × List β))
    (k : Option String) (v : List β) (h : gs.lookup k = none) :
    (gs ++ [(k, v)]).lookup k = some v := by
  induction gs with
  | nil => simp [lookup_cons_pair]
  | cons g t ih =>
    obtain ⟨gk, gv⟩ := g
    rw [lookup_cons_pair] at h
    by_cases h2 : k = gk
    · rw [if_pos h2] at h
      exact absurd h (by simp)
    · rw [if_neg h2] at h
      rw [List.cons_append, lookup_cons_pair, if_neg h2, ih h]

lemma lookup_addToGroup {β : Type} (gs : List (Option String × List β))
    (k : Option String) (b : β) (k2 : Option String) :
    (addToGroup gs k b).lookup k2
      = if k2 = k then some (((gs.lookup k).getD []) ++ [b]) else gs.lookup k2 := by
  unfold addToGroup
  by_cases hany : (gs.any fun g => decide (g.1 = k)) = true
  · rw [if_pos hany, lookup_map_update]
    by_cases h2 : k2 = k
    · subst h2
      rw [if_pos rfl, if_pos rfl]
      have hso : (gs.lookup k2).isSome := by
        rw [← any_fst_eq_lookup_isSome]
        exact hany
      obtain ⟨w, hw⟩ := Option.isSome_iff_exists.mp hso
      simp [hw]
    · rw [if_neg h2, if_neg h2]
  · have hnone : gs.lookup k = none := by
      have heq := any_fst_eq_lookup_isSome gs k
      rw [Bool.eq_false_iff.mpr hany] at heq
      exact Option.not_isSome_iff_eq_none.mp (by rw [← heq]; simp)
    rw [if_neg hany]
    by_cases h2 : k2 = k
    · subst h2
      rw [if_pos rfl, lookup_append_single_eq gs k2 [b] hnone, hnone]
      rfl
    · rw [if_neg h2, lookup_append_single_ne gs k k2 [b] h2]

lemma groupBy_lookup {β : Type} (key : β → Option String) (l : List β)
    (k : Option String) :
    (groupBy key l).lookup k
      = if (l.filter fun b => decide (key b = k)).isEmpty then none
        else some (l.filter fun b => decide (key b = k)) := by
  induction l using List.reverseRecOn with
  | nil => simp [groupBy]
  | append_singleton t b ih =>
    have hstep : groupBy key (t ++ [b]) = addToGroup (groupBy key t) (key b) b := by
      simp [groupBy, List.foldl_append]
    rw [hstep, lookup_addToGroup, List.filter_append]
    by_cases h2 : k = key b
    · subst h2
      rw [if_pos rfl, ih]
      have hb1 : (List.filter (fun x => decide (key x = key b)) [b]) = [b] := by
        simp
      rw [hb1]
      by_cases hf : (List.filter (fun x => decide (key x = key b)) t) = []
      · simp [hf]
      · simp [hf]
    · have hkb : key b ≠ k := fun hc => h2 hc.symm
      have hb0 : (List.filter (fun x => decide (key x = k)) [b]) = [] := by
        simp [hkb]
      rw [if_neg h2, ih, hb0, List.append_nil]

lemma lookup_map_val {β γ : Type} (gs : List (Option String × β)) (f : β → γ)
    (k : Option String) :
    (gs.map fun g => (g.1, f g.2)).lookup k = (gs.lookup k).map f := by
  induction gs with
  | nil => simp
  | cons g t ih =>
    obtain ⟨gk, gv⟩ := g
    by_cases h : k = gk
    · subst h
      simp [List.lookup_cons]
    · have hb : (k == gk) = false := beq_eq_false_iff_ne.mpr h
      simp [List.lookup_cons, hb, ih]

lemma categoryOfTier_eq_none_iff (r : TaskResult) :
    categoryOfTier r = none ↔ r.education_tier = some none := by
  unfold categoryOfTier
  cases h : r.education_tier <;> simp

/-- C10: `score_by_category` groups a result whose `education_tier` key is
present but null under the `None` key (not under "unknown"); only a result
lacking the key entirely goes to the "unknown" group; consequently the
`by_tier` mapping of `compare_model_results` has a `None` key exactly when a
result with a null tier exists. -/
theorem scoreByCategory_spec (sqrt : ℚ → ℚ) (rs : List TaskResult) :
    (∀ k : Option String, (scoreByCategory sqrt rs).lookup k
        = if (rs.filter fun r => decide (categoryOfTier r = k)) = [] then none
          else some (aggregateScores sqrt
            (rs.filter fun r => decide (categoryOfTier r = k))))
    ∧ (∀ r : TaskResult, r.education_tier = some none → categoryOfTier r = none)
    ∧ (∀ r : TaskResult, r.education_tier = none → categoryOfTier r = some "unknown")
    ∧ (((scoreByCategory sqrt rs).lookup none).isSome
        ↔ ∃ r ∈ rs, r.education_tier = some none) := by
  have hlk : ∀ k : Option String, (scoreByCategory sqrt rs).lookup k
      = if (rs.filter fun r => decide (categoryOfTier r = k)) = [] then none
        else some (aggregateScores sqrt
          (rs.filter fun r => decide (categoryOfTier r = k))) := by
    intro k
    unfold scoreByCategory
    rw [lookup_map_val, groupBy_lookup]
    by_cases h : (rs.filter fun r => decide (categoryOfTier r = k)) = [] <;> simp [h]
  refine ⟨hlk, ?_, ?_, ?_⟩
  · intro r h
    simp [categoryOfTier, h]
  · intro r h
    simp [categoryOfTier, h]
  · rw [hlk none]
    by_cases h : (rs.filter fun r => decide (categoryOfTier r = none)) = []
    · simp only [h, if_pos]
      simp only [Option.isSome_none, Bool.false_eq_true, false_iff]
      rintro ⟨r, hr, htier⟩
      have hcat : decide (categoryOfTier r = none) = true := by
        simp [(categoryOfTier_eq_none_iff r).mpr htier]
      exact (List.filter_eq_nil_iff.mp h r hr) hcat
    · simp only [h, if_neg, ite_false, Option.isSome_some, true_iff]
      obtain ⟨x, hx⟩ := List.exists_mem_of_ne_nil _ h
      have hmem := List.mem_filter.mp hx
      refine ⟨x, hmem.1, ?_⟩
      exact (categoryOfTier_eq_none_iff x).mp (of_decide_eq_true hmem.2)

/-- One run-summary dict as `analyze_trends` reads it. -/
structure RunRec where
  model_id : Option (Option String) := none
  overall_score : Option ℚ := none
  completed_at : Option String := none
deriving DecidableEq, Repr

/-- `run.get("model_id", "unknown")`: a present key keeps its value (even
`None`); an absent key falls back to "unknown". -/
def runModelKey (r : RunRec) : Option String :=
  match r.model_id with
  | some v => v
  | none => some "unknown"

/-- The per-run sort key `r.get("completed_at") or ""`. -/
def runSortKey (r : RunRec) : String := r.completed_at.getD ""

/-- `model_runs.sort(key=...)`: stable ascending sort by completion date. -/
def sortRuns (rs : List RunRec) : List RunRec :=
  rs.mergeSort fun a b => decide (runSortKey a ≤ runSortKey b)

/-- `analyzer/trends.py` `_moving_average(values, window)`. -/
def movingAverage (values : List ℚ) (window : ℕ) : List ℚ :=
  if values.length ≤ window then
    (List.range values.length).map fun i =>
      pyRound ((values.take (i + 1)).sum / ((i + 1 : ℕ) : ℚ)) 2
  else
    (List.range values.length).map fun i =>
      let start := i + 1 - window
      let wvals := (values.drop start).take (i + 1 - start)
      pyRound (wvals.sum / ((wvals.length : ℕ) : ℚ)) 2

/-- One model's trend dict.  The insufficient-data branch omits the
`latest_score`/`first_score`/numeric keys; omission is modelled as `none`. -/
structure TrendEntry where
  direction : String
  data_points : ℕ
  scores : List ℚ
  dates : List (Option String)
  moving_average : List ℚ
  change : Option ℚ
  change_percent : Option ℚ
  latest_score : Option ℚ
  first_score : Option ℚ
deriving DecidableEq, Repr

/-- The per-model body of `analyze_trends`: sort the model's runs by
completion date, extract the non-null scores and classify the trend. -/
def trendEntry (modelRuns : List RunRec) (window : ℕ) : TrendEntry :=
  let sorted := sortRuns modelRuns
  let scores := sorted.filterMap fun r => r.overall_score
  let dates := (sorted.filter fun r => r.overall_score.isSome).map fun r => r.completed_at
  if scores.length < 2 then
    ⟨"insufficient_data", scores.length, scores, dates, scores, none, none, none, none⟩
  else
    let moving := movingAverage scores window
    let m := Min.min 3 scores.length
    let recent := scores.drop (scores.length - m)
    let earlier := scores.take m
    let avg_recent := recent.sum / (recent.length : ℚ)
    let avg_earlier := earlier.sum / (earlier.length : ℚ)
    let direction :=
      if avg_earlier + 2 < avg_recent then "improving"
      else if avg_recent < avg_earlier - 2 then "declining"
      else "stable"
    let change := pyRound (scores.getLastD 0 - scores.headD 0) 2
    let change_percent :=
      if scores.headD 0 ≠ 0 then pyRound (change / scores.headD 0 * 100) 1 else 0
    ⟨direction, scores.length, scores, dates, moving, some change, some change_percent,
     some (scores.getLastD 0), some (scores.headD 0)⟩

/-- `analyzer/trends.py` `analyze_trends(runs, window_size)`: group by model
(Python-dict key order), one trend entry per model. -/
def analyzeTrends (runs : List RunRec) (window : ℕ) : List (Option String × TrendEntry) :=
  (groupBy runModelKey runs).map fun g => (g.1, trendEntry g.2 window)

/-- Spec-side: the mean of the first `min(3, n)` points. -/
def avgFirst (scores : List ℚ) : ℚ :=
  (scores.take (Min.min 3 scores.length)).sum / ((Min.min 3 scores.length : ℕ) : ℚ)

/-- Spec-side: the mean of the last `min(3, n)` points. -/
def avgLast (scores : List ℚ) : ℚ :=
  (scores.drop (scores.length - Min.min 3 scores.length)).sum
    / ((Min.min 3 scores.length : ℕ) : ℚ)

lemma trendEntry_direction (g : List RunRec) (window : ℕ) :
    ((trendEntry g window).scores.length < 2 →
      (trendEntry g window).direction = "insufficient_data")
    ∧ (2 ≤ (trendEntry g window).scores.length →
        (trendEntry g window).direction =
          (if avgFirst (trendEntry g window).scores + 2 < avgLast (trendEntry g window).scores
            then "improving"
           else if avgLast (trendEntry g window).scores
              < avgFirst (trendEntry g window).scores - 2 then "declining"
           else "stable")) := by
  by_cases h : ((sortRuns g).filterMap fun r => r.overall_score).length < 2
  · have he : trendEntry g window =
        ⟨"insufficient_data", ((sortRuns g).filterMap fun r => r.overall_score).length,
         (sortRuns g).filterMap fun r => r.overall_score,
         ((sortRuns g).filter fun r => r.overall_score.isSome).map fun r => r.completed_at,
         (sortRuns g).filterMap fun r => r.overall_score, none, none, none, none⟩ := by
      simp only [trendEntry, if_pos h]
    rw [he]
    exact ⟨fun _ => rfl, fun h2 => absurd h2 (by simpa using h)⟩
  · have hn : 2 ≤ ((sortRuns g).filterMap fun r => r.overall_score).length := by omega
    have hmle : Min.min 3 ((sortRuns g).filterMap fun r => r.overall_score).length
        ≤ ((sortRuns g).filterMap fun r => r.overall_score).length :=
      Nat.min_le_right _ _
    have hrec : (((sortRuns g).filterMap fun r => r.overall_score).drop
        (((sortRuns g).filterMap fun r => r.overall_score).length
          - Min.min 3 ((sortRuns g).filterMap fun r => r.overall_score).length)).length
        = Min.min 3 ((sortRuns g).filterMap fun r => r.overall_score).length := by
      rw [List.length_drop]
      omega
    have hear : (((sortRuns g).filterMap fun r => r.overall_score).take
        (Min.min 3 ((sortRuns g).filterMap fun r => r.overall_score).length)).length
        = Min.min 3 ((sortRuns g).filterMap fun r => r.overall_score).length := by
      rw [List.length_take]
      omega
    have hsc : (trendEntry g window).scores
        = (sortRuns g).filterMap fun r => r.overall_score := by
      simp only [trendEntry, if_neg h]
    have hdir : (trendEntry g window).direction =
        (if avgFirst ((sortRuns g).filterMap fun r => r.overall_score) + 2
            < avgLast ((sortRuns g).filterMap fun r => r.overall_score) then "improving"
         else if avgLast ((sortRuns g).filterMap fun r => r.overall_score)
            < avgFirst ((sortRuns g).filterMap fun r => r.overall_score) - 2 then "declining"
         else "stable") := by
      simp only [trendEntry, if_neg h, avgFirst, avgLast, hrec, hear]
    refine ⟨fun h1 => ?_, fun _ => ?_⟩
    · rw [hsc] at h1
      exact absurd h1 h
    · rw [hdir, hsc]

/-- C9: each model's trend entry reports direction `insufficient_data` on
fewer than 2 scored points; otherwise it compares the mean of the last
`min(3, n)` points of the chronologically sorted score series with the mean
of the first `min(3, n)` and reports improving only above +2, declining
only below -2, stable otherwise — so a difference of exactly ±2 is stable. -/
theorem analyzeTrends_direction (runs : List RunRec) (window : ℕ)
    (mid : Option String) (e : TrendEntry)
    (h : (analyzeTrends runs window).lookup mid = some e) :
    (e.scores.length < 2 → e.direction = "insufficient_data")
    ∧ (2 ≤ e.scores.length →
        e.direction =
          (if avgFirst e.scores + 2 < avgLast e.scores then "improving"
           else if avgLast e.scores < avgFirst e.scores - 2 then "declining"
           else "stable"))
    ∧ (2 ≤ e.scores.length →
        (avgLast e.scores = avgFirst e.scores + 2
          ∨ avgLast e.scores = avgFirst e.scores - 2) →
        e.direction = "stable") := by
  have hg : ∃ g : List RunRec, e = trendEntry g window := by
    unfold analyzeTrends at h
    rw [lookup_map_val (groupBy runModelKey runs) (fun v => trendEntry v window) mid] at h
    cases hlk : (groupBy runModelKey runs).lookup mid with
    | none =>
      rw [hlk] at h
      exact absurd h (by simp)
    | some g =>
      rw [hlk] at h
      refine ⟨g, ?_⟩
      have hh : some (trendEntry g window) = some e := h
      exact ((Option.some.injEq _ _).mp hh).symm
  obtain ⟨g, rfl⟩ := hg
  have hd := trendEntry_direction g window
  refine ⟨hd.1, hd.2, fun hn heq => ?_⟩
  rw [hd.2 hn]
  rcases heq with heq | heq
  · rw [if_neg (by rw [heq]; exact lt_irrefl _), if_neg (by rw [heq]; intro hc; linarith)]
  · rw [if_neg (by rw [heq]; intro hc; linarith), if_neg (by rw [heq]; exact lt_irrefl _)]

/-- A single run for one model: enough to look up its trend entry. -/
def c9WitnessRuns : List RunRec :=
  [{ model_id := some (some "m"), overall_score := some 10, completed_at := some "d" }]

/-- Witness for C9: the single-run model is reported with direction
`insufficient_data`. -/
theorem analyzeTrends_direction_witness :
    (trendEntry c9WitnessRuns 5).direction = "insufficient_data" := by
  have hlk : (analyzeTrends c9WitnessRuns 5).lookup (some "m")
      = some (trendEntry c9WitnessRuns 5) := by
    simp [analyzeTrends, groupBy, addToGroup, runModelKey, c9WitnessRuns,
      lookup_cons_pair]
  have h := analyzeTrends_direction c9WitnessRuns 5 (some "m")
    (trendEntry c9WitnessRuns 5) hlk
  apply h.1
  have hs : (trendEntry c9WitnessRuns 5).scores = [10] := by
    simp [trendEntry, sortRuns, c9WitnessRuns, List.mergeSort_singleton]
  rw [hs]
  simp

end VoiceLearnEval
